import Mathlib

/-!
Verification development for the si repository fragments:
the icon registry, the Vuex `applicationContext` and `editor` store modules,
the `external_providers` SQL migration, and the `exists` check function.
Each TypeScript/SQL definition is shallowly embedded as a Lean definition;
external calls (DAL replies, fetched successors, sequences, clocks) become
explicit parameters.
-/

set_option maxHeartbeats 1000000

/-! ## Lodash list helpers

`_.unionBy`/`_.uniqBy` keep, in order, the first element seen for each key.
`uniqByAux` carries the set of keys already seen. -/

def uniqByAux {α β : Type} [DecidableEq β] (key : α → β) : List β → List α → List α
  | _, [] => []
  | seen, x :: xs =>
    if key x ∈ seen then uniqByAux key seen xs
    else x :: uniqByAux key (key x :: seen) xs

/-- `_.unionBy(xs, ys, key)`: concatenate and keep the first occurrence of each key. -/
def unionByKey {α β : Type} [DecidableEq β] (key : α → β) (xs ys : List α) : List α :=
  uniqByAux key [] (xs ++ ys)

/-- `_.union(xs, ys)`: union with whole-value equality. -/
def lodashUnion {α : Type} [DecidableEq α] (xs ys : List α) : List α :=
  unionByKey (fun x => x) xs ys

theorem mem_of_mem_uniqByAux {α β : Type} [DecidableEq β] (key : α → β) :
    ∀ (seen : List β) (l : List α) (y : α), y ∈ uniqByAux key seen l → y ∈ l := by
  intro seen l
  induction l generalizing seen with
  | nil => intro y h; simp [uniqByAux] at h
  | cons x xs ih =>
    intro y h
    simp only [uniqByAux] at h
    by_cases hx : key x ∈ seen
    · rw [if_pos hx] at h
      exact List.mem_cons_of_mem _ (ih seen y h)
    · rw [if_neg hx] at h
      rcases List.mem_cons.mp h with h | h
      · subst h; exact List.mem_cons_self _ _
      · exact List.mem_cons_of_mem _ (ih _ y h)

theorem key_notMem_seen_of_mem_uniqByAux {α β : Type} [DecidableEq β] (key : α → β) :
    ∀ (seen : List β) (l : List α) (y : α), y ∈ uniqByAux key seen l → key y ∉ seen := by
  intro seen l
  induction l generalizing seen with
  | nil => intro y h; simp [uniqByAux] at h
  | cons x xs ih =>
    intro y h
    simp only [uniqByAux] at h
    by_cases hx : key x ∈ seen
    · rw [if_pos hx] at h
      exact ih seen y h
    · rw [if_neg hx] at h
      rcases List.mem_cons.mp h with h | h
      · subst h; exact hx
      · intro hc
        exact ih (key x :: seen) y h (List.mem_cons_of_mem _ hc)

theorem pairwise_uniqByAux {α β : Type} [DecidableEq β] (key : α → β) :
    ∀ (seen : List β) (l : List α),
      List.Pairwise (fun a b => key a ≠ key b) (uniqByAux key seen l) := by
  intro seen l
  induction l generalizing seen with
  | nil => simp [uniqByAux]
  | cons x xs ih =>
    simp only [uniqByAux]
    by_cases hx : key x ∈ seen
    · rw [if_pos hx]; exact ih seen
    · rw [if_neg hx]
      refine List.Pairwise.cons ?_ (ih _)
      intro y hy
      have := key_notMem_seen_of_mem_uniqByAux key _ _ y hy
      intro hc
      exact this (hc ▸ List.mem_cons_self _ _)

theorem length_uniqByAux_le {α β : Type} [DecidableEq β] (key : α → β) :
    ∀ (seen : List β) (l : List α), (uniqByAux key seen l).length ≤ l.length := by
  intro seen l
  induction l generalizing seen with
  | nil => simp [uniqByAux]
  | cons x xs ih =>
    simp only [uniqByAux]
    by_cases hx : key x ∈ seen
    · rw [if_pos hx]
      exact Nat.le_succ_of_le (ih seen)
    · rw [if_neg hx]
      simpa using ih (key x :: seen)

theorem length_uniqByAux_lt {α β : Type} [DecidableEq β] (key : α → β) :
    ∀ (seen : List β) (l : List α), (∃ y ∈ l, key y ∈ seen) →
      (uniqByAux key seen l).length < l.length := by
  intro seen l
  induction l generalizing seen with
  | nil => rintro ⟨y, hy, _⟩; simp at hy
  | cons x xs ih =>
    rintro ⟨y, hy, hys⟩
    simp only [uniqByAux]
    by_cases hx : key x ∈ seen
    · rw [if_pos hx]
      exact Nat.lt_succ_of_le (length_uniqByAux_le key seen xs)
    · rw [if_neg hx]
      rcases List.mem_cons.mp hy with rfl | hmem
      · exact absurd hys hx
      · have : key y ∈ key x :: seen := List.mem_cons_of_mem _ hys
        simpa using ih (key x :: seen) ⟨y, hmem, this⟩

/-! ## Icon registry (`getIconByName`)

Icons are identified by the name of the imported asset. The frozen records
`ICONS`, `SPINNABLE_ICONS` and `ICON_NAME_ALIASES` become association lists,
and `obj[k]` becomes an `Option`-valued lookup; JS `||` on icon values (all
truthy) becomes `Option.orElse`. -/

namespace IconRegistry

def ICONS : List (String × String) := [
  ("alert-circle", "AlertCircle"),
  ("alert-square", "AlertSquare"),
  ("alert-triangle", "AlertTriangle"),
  ("beaker", "Beaker"),
  ("bell", "Bell"),
  ("check", "Check"),
  ("check-badge", "CheckBadge"),
  ("check-circle", "CheckCircle"),
  ("check-square", "CheckSquare"),
  ("clipboard-copy", "ClipboardCopy"),
  ("clock", "Clock"),
  ("component", "Cube"),
  ("credit-card", "CreditCard"),
  ("diagram", "Diagram"),
  ("dots-horizontal", "DotsHorizontal"),
  ("dots-vertical", "DotsVertical"),
  ("edit", "Pencil"),
  ("exclamation-circle", "ExclamationCircle"),
  ("external-link", "ExternalLink"),
  ("eye", "Eye"),
  ("git-branch", "GitBranch"),
  ("git-commit", "GitCommit"),
  ("git-merge", "GitMerge"),
  ("help-circle", "QuestionMarkCircle"),
  ("hide", "EyeOff"),
  ("link", "Link"),
  ("loader", "Loader"),
  ("lock", "Lock"),
  ("lock-open", "LockOpen"),
  ("minus", "Minus"),
  ("minus-circle", "MinusCircle"),
  ("moon", "Moon"),
  ("play", "Play"),
  ("play-circle", "PlayCircle"),
  ("plus", "Plus"),
  ("plus-circle", "PlusCircle"),
  ("refresh", "Refresh"),
  ("refresh-active", "Refresh"),
  ("save", "Save"),
  ("search", "Search"),
  ("selector", "Selector"),
  ("show", "Eye"),
  ("sun", "Sun"),
  ("tilde", "Tilde"),
  ("tilde-circle", "TildeCircle"),
  ("tools", "Tools"),
  ("trash", "Trash"),
  ("x", "X"),
  ("x-circle", "XCircle"),
  ("x-square", "XSquare")]

def SPINNABLE_ICONS : List (String × String) := [
  ("arrow", "Arrow"),
  ("chevron", "Chevron")]

def ICON_NAME_ALIASES : List (String × String) := []

/-- Property access `record[k]` on a frozen record, as association-list lookup. -/
def lookupIcon (record : List (String × String)) (k : String) : Option String :=
  (record.find? (fun p => p.1 = k)).map (fun p => p.2)

/-- Does the character list start with the separator? -/
def charsStartWith : List Char → List Char → Bool
  | [], _ => true
  | _ :: _, [] => false
  | s :: ss, c :: cs => s = c && charsStartWith ss cs

/-- Characters before the first occurrence of the separator. -/
def takeBeforeSep (sep : List Char) : List Char → List Char
  | [] => []
  | c :: cs => if charsStartWith sep (c :: cs) then [] else c :: takeBeforeSep sep cs

/-- `name.split("--")[0]`: the part of the name before the first `--`
(the whole name when `--` does not occur). -/
def nameWithoutModifiers (name : String) : String :=
  String.mk (takeBeforeSep ['-', '-'] name.toList)

def getIconByName (name : String) : Option String :=
  let base := nameWithoutModifiers name
  (lookupIcon SPINNABLE_ICONS base) <|>
  (lookupIcon ICONS base) <|>
  ((lookupIcon ICON_NAME_ALIASES base).bind (lookupIcon ICONS)) <|>
  (lookupIcon ICONS "help-circle")

end IconRegistry

/-! ## The `exists` check function -/

namespace ExistsCheck

/-- A JavaScript value, as far as truthiness is concerned. -/
inductive JsValue where
  | undefinedV
  | nullV
  | booleanV (b : Bool)
  | numberV (n : Int)
  | stringV (s : String)
  | objectV
deriving DecidableEq, Repr

def JsValue.truthy : JsValue → Bool
  | .undefinedV => false
  | .nullV => false
  | .booleanV b => b
  | .numberV n => n != 0
  | .stringV s => s != ""
  | .objectV => true

structure ResourceField where
  value : JsValue
deriving DecidableEq, Repr

structure Input where
  resource : Option ResourceField
  deleted_at : JsValue
deriving DecidableEq, Repr

structure Output where
  success : Bool
  recommendedActions : List String
deriving DecidableEq, Repr

/-- `input.resource?.value` — optional chaining yields `undefined` when
`resource` is null/undefined. -/
def resourceValue (input : Input) : JsValue :=
  match input.resource with
  | some r => r.value
  | none => .undefinedV

def existsCheck (input : Input) : Output :=
  if (resourceValue input).truthy && input.deleted_at.truthy then
    { success := false, recommendedActions := ["delete"] }
  else
    { success := true, recommendedActions := [] }

end ExistsCheck

/-! ## Shared si-model data types

`ChangeSet`, `EditSession`, label/value options. Fields are limited to those
the embedded store modules read. -/

namespace SiModel

inductive ChangeSetStatus where
  | Open
  | Closed
  | Abandoned
  | Executing
  | Failed
deriving DecidableEq, Repr

structure ChangeSet where
  id : String
  name : String
  status : ChangeSetStatus
deriving DecidableEq, Repr

structure EditSession where
  id : String
  name : String
deriving DecidableEq, Repr

structure LabelValue where
  value : String
  label : String
deriving DecidableEq, Repr

/-- A TS `T | null` value inside a possibly-absent (`?:`) field:
distinguishes `undefined`, `null` and a value. -/
inductive JsOpt (α : Type) where
  | undefinedV
  | nullV
  | value (a : α)
deriving DecidableEq, Repr

end SiModel

/-! ## The `applicationContext` Vuex store module -/

namespace ApplicationContext

open SiModel

structure InstanceStoreContext where
  storeName : String
  instanceId : String
deriving DecidableEq, Repr

structure ApplicationContextStore where
  applicationId : Option String
  activatedBy : Finset String
  applicationName : Option String
  systemsList : List LabelValue
  currentSystem : Option String
  openChangeSetsList : List LabelValue
  currentChangeSet : Option ChangeSet
  currentEditSession : Option EditSession
  statusBarCtx : JsOpt InstanceStoreContext
  editMode : Bool
deriving DecidableEq

/-- The `state()` factory of the module. -/
def initialState : ApplicationContextStore :=
  { applicationId := none
    activatedBy := ∅
    applicationName := none
    systemsList := []
    currentSystem := none
    openChangeSetsList := []
    currentChangeSet := none
    currentEditSession := none
    statusBarCtx := .nullV
    editMode := false }

/-! ### Mutations -/

def setCurrentChangeSetAndEditSession (s : ApplicationContextStore)
    (changeSet : Option ChangeSet) (editSession : Option EditSession) :
    ApplicationContextStore :=
  { s with currentChangeSet := changeSet, currentEditSession := editSession }

def setCurrentChangeSet (s : ApplicationContextStore) (payload : Option ChangeSet) :
    ApplicationContextStore :=
  { s with currentChangeSet := payload }

def setCurrentEditSession (s : ApplicationContextStore) (payload : Option EditSession) :
    ApplicationContextStore :=
  { s with currentEditSession := payload }

def updateOpenChangeSetsList (s : ApplicationContextStore) (payload : List LabelValue) :
    ApplicationContextStore :=
  { s with openChangeSetsList := lodashUnion payload s.openChangeSetsList }

structure ApplicationContextPayload where
  applicationName : String
  systemsList : List LabelValue
  openChangeSetsList : List LabelValue
deriving DecidableEq, Repr

def setApplicationContext (s : ApplicationContextStore)
    (payload : ApplicationContextPayload) : ApplicationContextStore :=
  { s with
    applicationName := some payload.applicationName
    systemsList := payload.systemsList
    openChangeSetsList := payload.openChangeSetsList ++ [{ value := "", label := "" }] }

def setEditMode (s : ApplicationContextStore) (payload : Bool) : ApplicationContextStore :=
  { s with editMode := payload }

def addToActivatedBy (s : ApplicationContextStore) (payload : String) :
    ApplicationContextStore :=
  { s with activatedBy := insert payload s.activatedBy }

def removeFromActivatedBy (s : ApplicationContextStore) (payload : String) :
    ApplicationContextStore :=
  { s with activatedBy := s.activatedBy.erase payload }

def clearCurrentChangeSetAndCurrentEditSessionMut (s : ApplicationContextStore) :
    ApplicationContextStore :=
  { s with currentChangeSet := none, currentEditSession := none }

def clear (s : ApplicationContextStore) : ApplicationContextStore :=
  { s with
    applicationId := none
    applicationName := none
    systemsList := []
    currentSystem := none
    openChangeSetsList := []
    currentChangeSet := none
    statusBarCtx := .undefinedV }

def setStatusBarCtx (s : ApplicationContextStore)
    (payload : JsOpt InstanceStoreContext) : ApplicationContextStore :=
  { s with statusBarCtx := payload }

/-! ### Actions

`activate`/`deactivate` take the result of `payload.activateName()` as a
string. DAL-calling actions take the DAL reply as a parameter and return the
new state together with the reply they return to the caller. -/

def activate (s : ApplicationContextStore) (activateName : String) :
    ApplicationContextStore :=
  addToActivatedBy s activateName

def deactivate (s : ApplicationContextStore) (activateName : String) :
    ApplicationContextStore :=
  let s1 := removeFromActivatedBy s activateName
  if s1.activatedBy.card = 0 then clear s1 else s1

structure SDFError where
  message : String
deriving DecidableEq, Repr

structure IGetApplicationContextReply where
  error : Option SDFError
  applicationName : String
  systemsList : List LabelValue
  openChangeSetsList : List LabelValue
deriving DecidableEq, Repr

structure IGetChangeSetAndEditSessionReply where
  error : Option SDFError
  changeSet : ChangeSet
  editSession : EditSession
deriving DecidableEq, Repr

structure ICreateEditSessionAndGetChangeSetReply where
  error : Option SDFError
  changeSet : ChangeSet
  editSession : EditSession
deriving DecidableEq, Repr

structure ICreateChangeSetAndEditSessionReply where
  error : Option SDFError
  changeSet : ChangeSet
  editSession : EditSession
deriving DecidableEq, Repr

structure ICreateEditSessionReply where
  error : Option SDFError
  editSession : EditSession
deriving DecidableEq, Repr

structure ICancelEditSessionReply where
  error : Option SDFError
deriving DecidableEq, Repr

def loadApplicationContext (s : ApplicationContextStore)
    (reply : IGetApplicationContextReply) :
    ApplicationContextStore × IGetApplicationContextReply :=
  if reply.error = none then
    (setApplicationContext s
      { applicationName := reply.applicationName
        systemsList := reply.systemsList
        openChangeSetsList := reply.openChangeSetsList }, reply)
  else (s, reply)

def loadChangeSetAndEditSession (s : ApplicationContextStore)
    (reply : IGetChangeSetAndEditSessionReply) :
    ApplicationContextStore × IGetChangeSetAndEditSessionReply :=
  if reply.error = none then
    (setCurrentChangeSetAndEditSession s (some reply.changeSet) (some reply.editSession),
      reply)
  else (s, reply)

def createEditSessionAndLoadChangeSet (s : ApplicationContextStore)
    (reply : ICreateEditSessionAndGetChangeSetReply) :
    ApplicationContextStore × ICreateEditSessionAndGetChangeSetReply :=
  if reply.error = none then
    (setCurrentChangeSetAndEditSession s (some reply.changeSet) (some reply.editSession),
      reply)
  else (s, reply)

def createChangeSetAndEditSession (s : ApplicationContextStore)
    (reply : ICreateChangeSetAndEditSessionReply) :
    ApplicationContextStore × ICreateChangeSetAndEditSessionReply :=
  if reply.error = none then
    let s1 := updateOpenChangeSetsList s
      [{ label := reply.changeSet.name, value := reply.changeSet.id }]
    let s2 := setCurrentChangeSet s1 (some reply.changeSet)
    let s3 := setCurrentEditSession s2 (some reply.editSession)
    (s3, reply)
  else (s, reply)

def createEditSession (s : ApplicationContextStore)
    (reply : ICreateEditSessionReply) :
    ApplicationContextStore × ICreateEditSessionReply :=
  if reply.error = none then
    (setCurrentEditSession s (some reply.editSession), reply)
  else (s, reply)

def cancelEditSession (s : ApplicationContextStore)
    (reply : ICancelEditSessionReply) :
    ApplicationContextStore × ICancelEditSessionReply :=
  if reply.error = none then
    (setCurrentEditSession s none, reply)
  else (s, reply)

end ApplicationContext

/-! ## The `editor` Vuex store module (si-web-app-old) -/

namespace Editor

open SiModel

structure Entity where
  id : String
  nodeId : String
deriving DecidableEq, Repr

structure System where
  id : String
deriving DecidableEq, Repr

structure Node where
  id : String
  objectType : String
deriving DecidableEq, Repr

structure NodeObject where
  nodeId : String
  head : Bool
  deleted : Bool
deriving DecidableEq, Repr

structure Vertex where
  nodeId : String
deriving DecidableEq, Repr

structure Edge where
  tailVertex : Vertex
  headVertex : Vertex
deriving DecidableEq, Repr

structure Resource where
  id : String
  nodeId : String
  systemId : String
deriving DecidableEq, Repr

structure Event where
  id : String
  startUnixTimestamp : Int
deriving DecidableEq, Repr

structure EventLog where
  id : String
  unixTimestamp : Int
deriving DecidableEq, Repr

structure OutputLine where
  line : String
deriving DecidableEq, Repr

structure EventBarItem where
  id : String
  event : Event
  logs : List EventLog
  output : List (String × OutputLine)
deriving DecidableEq, Repr

structure DiffResult where
  entries : List String
  count : Nat
deriving DecidableEq, Repr

inductive EditorMode where
  | view
  | edit
deriving DecidableEq, Repr

structure EditorStore where
  mode : EditorMode
  context : String
  mouseTrackSelection : Option String
  isSaving : Bool
  editSaveError : Option String
  changeSetsOpen : List ChangeSet
  changeSet : Option ChangeSet
  changeSetParticipantCount : Nat
  editSession : Option EditSession
  application : Option Entity
  system : Option System
  systems : List System
  nodes : List Node
  objects : List (String × NodeObject)
  edges : List Edge
  node : Option Node
  directSuccessors : List Node
  newConfiguresInputTypes : List (Option String × String)
  propertyList : List String
  secretList : Option (List String)
  secretName : Option String
  editObject : Option Entity
  diff : DiffResult
  eventBar : List EventBarItem
  resources : List Resource
  currentResource : Option Resource
deriving DecidableEq

/-- The initial `state` block of the module. -/
def initialState : EditorStore :=
  { mode := .view
    context := "none"
    mouseTrackSelection := none
    isSaving := false
    editSaveError := none
    changeSetsOpen := []
    changeSet := none
    changeSetParticipantCount := 0
    editSession := none
    application := none
    system := none
    systems := []
    nodes := []
    objects := []
    edges := []
    node := none
    directSuccessors := []
    newConfiguresInputTypes := []
    propertyList := []
    secretList := none
    secretName := none
    editObject := none
    diff := { entries := [], count := 0 }
    eventBar := []
    resources := []
    currentResource := none }

/-! ### Sort orders used by `_.orderBy` calls -/

/-- Descending order on `event.startUnixTimestamp` for the event bar. -/
def eventBarDescOrder (a b : EventBarItem) : Prop :=
  b.event.startUnixTimestamp ≤ a.event.startUnixTimestamp

instance : DecidableRel eventBarDescOrder := fun a b =>
  inferInstanceAs (Decidable (b.event.startUnixTimestamp ≤ a.event.startUnixTimestamp))

instance : IsTotal EventBarItem eventBarDescOrder :=
  ⟨fun a b => le_total b.event.startUnixTimestamp a.event.startUnixTimestamp⟩

instance : IsTrans EventBarItem eventBarDescOrder :=
  ⟨fun _ _ _ h1 h2 => le_trans h2 h1⟩

/-- Ascending order on `unixTimestamp` for event logs. -/
def logAscOrder (a b : EventLog) : Prop :=
  a.unixTimestamp ≤ b.unixTimestamp

instance : DecidableRel logAscOrder := fun a b =>
  inferInstanceAs (Decidable (a.unixTimestamp ≤ b.unixTimestamp))

/-- Descending order on `id` for resources. -/
def resourceDescOrder (a b : Resource) : Prop := b.id ≤ a.id

instance : DecidableRel resourceDescOrder := fun a b =>
  inferInstanceAs (Decidable (b.id ≤ a.id))

/-! ### Mutations -/

def currentResourceMut (s : EditorStore) (payload : Option Resource) : EditorStore :=
  { s with currentResource := payload }

def mkEventBarItem (event : Event) (logs : List EventLog) : EventBarItem :=
  { id := event.id
    event := event
    logs := List.insertionSort logAscOrder logs
    output := [] }

/-- The list produced by the `updateEventBar` mutation:
`_.take(_.orderBy(_.unionBy([item], eventBar, "id"), ["event.startUnixTimestamp"], ["desc"]), 60)`. -/
def newEventBar (event : Event) (logs : List EventLog) (bar : List EventBarItem) :
    List EventBarItem :=
  (List.insertionSort eventBarDescOrder
    (unionByKey (fun i => i.id) [mkEventBarItem event logs] bar)).take 60

def updateEventBar (s : EditorStore) (event : Event) (logs : List EventLog) :
    EditorStore :=
  { s with eventBar := newEventBar event logs s.eventBar }

def updateResources (s : EditorStore) (payload : Resource) : EditorStore :=
  { s with resources :=
      (List.insertionSort resourceDescOrder
        (unionByKey (fun r => r.id) [payload] s.resources)) }

/-- The `node` mutation (the router query update has no store effect). -/
def nodeMut (s : EditorStore) (payload : Option Node) : EditorStore :=
  { s with node := payload }

def updateNodes (s : EditorStore) (payload : Node) : EditorStore :=
  { s with nodes := unionByKey (fun n => n.id) [payload] s.nodes }

def changeSetsOpenAdd (s : EditorStore) (payload : ChangeSet) : EditorStore :=
  { s with changeSetsOpen := unionByKey (fun c => c.id) [payload] s.changeSetsOpen }

def changeSetsOpenRemove (s : EditorStore) (payload : ChangeSet) : EditorStore :=
  { s with changeSetsOpen := s.changeSetsOpen.filter (fun c => c.id ≠ payload.id) }

/-- The `editSession` mutation (router query update has no store effect). -/
def editSessionMut (s : EditorStore) (payload : Option EditSession) : EditorStore :=
  { s with editSession := payload }

/-! ### Actions -/

structure Workspace where
  id : String
deriving DecidableEq, Repr

structure Organization where
  id : String
deriving DecidableEq, Repr

structure User where
  name : String
deriving DecidableEq, Repr

structure ICreateEditSessionRequestArgs where
  name : String
  workspaceId : String
  organizationId : String
deriving DecidableEq, Repr

/-- `editSessionCreate` — the backend `EditSession.create` becomes the `create`
parameter, the clock becomes `nowIso`. On success the result records the
change-set id and the arguments `create` was called with; a thrown error
becomes `Except.error`. -/
def editSessionCreate (workspace : Workspace) (organization : Organization)
    (user : User) (nowIso : String)
    (create : String → ICreateEditSessionRequestArgs → EditSession)
    (s : EditorStore) :
    Except String (EditorStore × (String × ICreateEditSessionRequestArgs)) :=
  match s.changeSet with
  | none => Except.error "cannot start an edit session without a change set!"
  | some changeSet =>
    let sessionName := user.name ++ " " ++ nowIso
    let args : ICreateEditSessionRequestArgs :=
      { name := sessionName, workspaceId := workspace.id, organizationId := organization.id }
    let editSession := create changeSet.id args
    Except.ok (editSessionMut s (some editSession), (changeSet.id, args))

/-- Dispatching a Vuex action throws past all commits when the action throws:
an erroring action leaves the store untouched. -/
def runEditorAction {α : Type} (s : EditorStore)
    (act : EditorStore → Except String (EditorStore × α)) :
    EditorStore × Except String α :=
  match act s with
  | Except.error e => (s, Except.error e)
  | Except.ok (s', a) => (s', Except.ok a)

/-- An action dispatched (not awaited) by another action. -/
inductive EditorDispatchCall where
  | setChangeSetCall (id : Option String)
deriving DecidableEq, Repr

/-- `fromChangeSet` — returns the store after the commits of this action itself,
together with the actions it dispatched. -/
def fromChangeSet (payload : ChangeSet) (s : EditorStore) :
    EditorStore × List EditorDispatchCall :=
  if payload.status = ChangeSetStatus.Open then
    (changeSetsOpenAdd s payload, [])
  else
    let dispatched :=
      if s.changeSet.map (fun c => c.id) = some payload.id then
        [EditorDispatchCall.setChangeSetCall none]
      else []
    (changeSetsOpenRemove s payload, dispatched)

/-- The invariant maintained by the event bar: at most 60 items, at most one item
per event id, sorted by `event.startUnixTimestamp` descending. -/
def eventBarInvariant (bar : List EventBarItem) : Prop :=
  bar.length ≤ 60 ∧
  List.Pairwise (fun a b => a.id ≠ b.id) bar ∧
  List.Sorted eventBarDescOrder bar

/-- `fromNode` — `state.application.node().successors()` becomes the
`successors` parameter and `Resource.getByEntityIdAndSystemId` the
`getResource` parameter. -/
def fromNode (successors : List Node) (getResource : String → String → Resource)
    (payload : Node) (s : EditorStore) : EditorStore :=
  match s.application with
  | none => s
  | some _ =>
    if (successors.find? (fun n => n.id = payload.id)).isSome then
      let s1 := updateNodes s payload
      let s2 :=
        if s1.node.map (fun n => n.id) = some payload.id then nodeMut s1 (some payload)
        else s1
      match s2.system with
      | some system => updateResources s2 (getResource payload.id system.id)
      | none => s2
    else s

end Editor

/-! ## The `external_providers` migration (U0059)

The database state carries the `external_providers` rows, the `bigserial`
sequences, the clock (`NOW()`), and — abstractly — every other table, as a
type parameter. The helper functions `tenancy_json_to_columns_v1`,
`visibility_json_to_columns_v1` and `row_to_json`, defined by other
migrations, are parameters of the embedding. -/

namespace SqlMigration

structure TenancyRecord where
  tenancy_universal : Bool
  tenancy_billing_account_ids : Option (List Int)
  tenancy_organization_ids : Option (List Int)
  tenancy_workspace_ids : Option (List Int)
deriving DecidableEq, Repr

structure VisibilityRecord where
  visibility_change_set_pk : Option Int
  visibility_edit_session_pk : Option Int
  visibility_deleted_at : Option Int
deriving DecidableEq, Repr

structure ExternalProviderRow where
  pk : Int
  id : Int
  tenancy_universal : Bool
  tenancy_billing_account_ids : Option (List Int)
  tenancy_organization_ids : Option (List Int)
  tenancy_workspace_ids : Option (List Int)
  visibility_change_set_pk : Option Int
  visibility_edit_session_pk : Option Int
  visibility_deleted_at : Option Int
  attribute_context_prop_id : Option Int
  attribute_context_schema_id : Option Int
  attribute_context_schema_variant_id : Option Int
  attribute_context_component_id : Option Int
  attribute_context_system_id : Option Int
  created_at : Int
  updated_at : Int
  prop_id : Option Int
  schema_id : Option Int
  schema_variant_id : Option Int
  name : Option String
  type_definition : Option String
  attribute_prototype_id : Option Int
deriving DecidableEq, Repr

structure Database (α : Type) where
  external_providers : List ExternalProviderRow
  pk_seq : Int
  id_seq : Int
  now : Int
  other_tables : α

def external_provider_create_v1 {J O α : Type}
    (tenancy_json_to_columns_v1 : J → TenancyRecord)
    (visibility_json_to_columns_v1 : J → VisibilityRecord)
    (row_to_json : ExternalProviderRow → O)
    (db : Database α)
    (this_tenancy : J) (this_visibility : J)
    (this_prop_id : Option Int) (this_schema_id : Option Int)
    (this_schema_variant_id : Option Int) (this_name : Option String)
    (this_type_definition : Option String)
    (this_attribute_prototype_id : Option Int) :
    Database α × O :=
  let this_tenancy_record := tenancy_json_to_columns_v1 this_tenancy
  let this_visibility_record := visibility_json_to_columns_v1 this_visibility
  let this_new_row : ExternalProviderRow :=
    { pk := db.pk_seq
      id := db.id_seq
      tenancy_universal := this_tenancy_record.tenancy_universal
      tenancy_billing_account_ids := this_tenancy_record.tenancy_billing_account_ids
      tenancy_organization_ids := this_tenancy_record.tenancy_organization_ids
      tenancy_workspace_ids := this_tenancy_record.tenancy_workspace_ids
      visibility_change_set_pk := this_visibility_record.visibility_change_set_pk
      visibility_edit_session_pk := this_visibility_record.visibility_edit_session_pk
      visibility_deleted_at := this_visibility_record.visibility_deleted_at
      attribute_context_prop_id := none
      attribute_context_schema_id := none
      attribute_context_schema_variant_id := none
      attribute_context_component_id := none
      attribute_context_system_id := none
      created_at := db.now
      updated_at := db.now
      prop_id := this_prop_id
      schema_id := this_schema_id
      schema_variant_id := this_schema_variant_id
      name := this_name
      type_definition := this_type_definition
      attribute_prototype_id := this_attribute_prototype_id }
  ({ db with
      external_providers := db.external_providers ++ [this_new_row]
      pk_seq := db.pk_seq + 1
      id_seq := db.id_seq + 1 },
    row_to_json this_new_row)

end SqlMigration

/-! ## Theorems -/

/-- C10: for every input, the `exists` check returns
`{ success: false, recommendedActions: ["delete"] }` exactly when
`input.resource?.value` is truthy and `input.deleted_at` is truthy, and
`{ success: true, recommendedActions: [] }` in every other case; being a total
function of its input, it never throws. -/
theorem ExistsCheck.existsCheck_spec : ∀ input : ExistsCheck.Input,
    (ExistsCheck.existsCheck input =
        { success := false, recommendedActions := ["delete"] } ↔
      ((ExistsCheck.resourceValue input).truthy = true ∧
        input.deleted_at.truthy = true)) ∧
    (ExistsCheck.existsCheck input =
        { success := true, recommendedActions := [] } ↔
      ¬((ExistsCheck.resourceValue input).truthy = true ∧
        input.deleted_at.truthy = true)) := by
  intro input
  cases hr : (ExistsCheck.resourceValue input).truthy <;>
    cases hd : input.deleted_at.truthy <;>
      exact ⟨by simp [ExistsCheck.existsCheck, hr, hd],
        by simp [ExistsCheck.existsCheck, hr, hd]⟩

/-- C7: `external_provider_create_v1` appends exactly one new row to
`external_providers` — leaving every existing row and every other table
unchanged — whose tenancy columns come from the tenancy json (via
`tenancy_json_to_columns_v1`), whose visibility columns come from the
visibility json (via `visibility_json_to_columns_v1`), and whose `prop_id`,
`schema_id`, `schema_variant_id`, `name`, `type_definition` and
`attribute_prototype_id` equal the corresponding arguments; it returns that
row rendered as json. -/
theorem SqlMigration.external_provider_create_v1_spec :
    ∀ {J O α : Type} (tjc : J → SqlMigration.TenancyRecord)
      (vjc : J → SqlMigration.VisibilityRecord)
      (rtj : SqlMigration.ExternalProviderRow → O)
      (db : SqlMigration.Database α) (t v : J)
      (pid sid svid : Option Int) (nm td : Option String) (apid : Option Int),
    ∃ row : SqlMigration.ExternalProviderRow,
      (SqlMigration.external_provider_create_v1 tjc vjc rtj db t v
          pid sid svid nm td apid).1.external_providers =
        db.external_providers ++ [row] ∧
      (SqlMigration.external_provider_create_v1 tjc vjc rtj db t v
          pid sid svid nm td apid).1.other_tables = db.other_tables ∧
      (SqlMigration.external_provider_create_v1 tjc vjc rtj db t v
          pid sid svid nm td apid).2 = rtj row ∧
      row.tenancy_universal = (tjc t).tenancy_universal ∧
      row.tenancy_billing_account_ids = (tjc t).tenancy_billing_account_ids ∧
      row.tenancy_organization_ids = (tjc t).tenancy_organization_ids ∧
      row.tenancy_workspace_ids = (tjc t).tenancy_workspace_ids ∧
      row.visibility_change_set_pk = (vjc v).visibility_change_set_pk ∧
      row.visibility_edit_session_pk = (vjc v).visibility_edit_session_pk ∧
      row.visibility_deleted_at = (vjc v).visibility_deleted_at ∧
      row.prop_id = pid ∧ row.schema_id = sid ∧ row.schema_variant_id = svid ∧
      row.name = nm ∧ row.type_definition = td ∧
      row.attribute_prototype_id = apid := by
  intro J O α tjc vjc rtj db t v pid sid svid nm td apid
  exact ⟨_, rfl, rfl, rfl, rfl, rfl, rfl, rfl, rfl, rfl, rfl, rfl, rfl, rfl,
    rfl, rfl, rfl⟩

/-- C1: every applicationContext action that calls the backend DAL
(`loadApplicationContext`, `loadChangeSetAndEditSession`,
`createEditSessionAndLoadChangeSet`, `createChangeSetAndEditSession`,
`createEditSession`, `cancelEditSession`) commits no mutation when the DAL
reply carries an error: the store state is returned exactly as it was, and
the reply is handed back to the caller unchanged. -/
theorem ApplicationContext.dal_error_commits_nothing :
    ∀ s : ApplicationContext.ApplicationContextStore,
      (∀ r : ApplicationContext.IGetApplicationContextReply, r.error ≠ none →
        ApplicationContext.loadApplicationContext s r = (s, r)) ∧
      (∀ r : ApplicationContext.IGetChangeSetAndEditSessionReply, r.error ≠ none →
        ApplicationContext.loadChangeSetAndEditSession s r = (s, r)) ∧
      (∀ r : ApplicationContext.ICreateEditSessionAndGetChangeSetReply, r.error ≠ none →
        ApplicationContext.createEditSessionAndLoadChangeSet s r = (s, r)) ∧
      (∀ r : ApplicationContext.ICreateChangeSetAndEditSessionReply, r.error ≠ none →
        ApplicationContext.createChangeSetAndEditSession s r = (s, r)) ∧
      (∀ r : ApplicationContext.ICreateEditSessionReply, r.error ≠ none →
        ApplicationContext.createEditSession s r = (s, r)) ∧
      (∀ r : ApplicationContext.ICancelEditSessionReply, r.error ≠ none →
        ApplicationContext.cancelEditSession s r = (s, r)) := by
  intro s
  refine ⟨?_, ?_, ?_, ?_, ?_, ?_⟩ <;> intro r h
  · simp [ApplicationContext.loadApplicationContext, h]
  · simp [ApplicationContext.loadChangeSetAndEditSession, h]
  · simp [ApplicationContext.createEditSessionAndLoadChangeSet, h]
  · simp [ApplicationContext.createChangeSetAndEditSession, h]
  · simp [ApplicationContext.createEditSession, h]
  · simp [ApplicationContext.cancelEditSession, h]

/-- C1 witness: on a concrete store and concrete error replies, all six
DAL-calling actions leave the store unchanged and return the reply. -/
theorem ApplicationContext.dal_error_commits_nothing_witness :
    (ApplicationContext.loadApplicationContext ApplicationContext.initialState
        { error := some { message := "boom" }, applicationName := "app"
          systemsList := [], openChangeSetsList := [] } =
      (ApplicationContext.initialState,
        { error := some { message := "boom" }, applicationName := "app"
          systemsList := [], openChangeSetsList := [] })) ∧
    (ApplicationContext.cancelEditSession ApplicationContext.initialState
        { error := some { message := "boom" } } =
      (ApplicationContext.initialState, { error := some { message := "boom" } })) :=
  ⟨(ApplicationContext.dal_error_commits_nothing
      ApplicationContext.initialState).1 _ (by simp),
    (ApplicationContext.dal_error_commits_nothing
      ApplicationContext.initialState).2.2.2.2.2 _ (by simp)⟩

/-- C2: `deactivate` removes the activator name from `activatedBy`; exactly
when `activatedBy` is empty after that removal the store is cleared
(`applicationId`/`applicationName` null, `systemsList`/`openChangeSetsList`
empty, `currentSystem`/`currentChangeSet` null, `statusBarCtx` unset), and
while `activatedBy` stays non-empty no field other than `activatedBy`
changes. -/
theorem ApplicationContext.deactivate_spec :
    ∀ (s : ApplicationContext.ApplicationContextStore) (activateName : String),
      (ApplicationContext.deactivate s activateName).activatedBy =
        s.activatedBy.erase activateName ∧
      (s.activatedBy.erase activateName = ∅ →
        (ApplicationContext.deactivate s activateName).applicationId = none ∧
        (ApplicationContext.deactivate s activateName).applicationName = none ∧
        (ApplicationContext.deactivate s activateName).systemsList = [] ∧
        (ApplicationContext.deactivate s activateName).currentSystem = none ∧
        (ApplicationContext.deactivate s activateName).openChangeSetsList = [] ∧
        (ApplicationContext.deactivate s activateName).currentChangeSet = none ∧
        (ApplicationContext.deactivate s activateName).statusBarCtx =
          SiModel.JsOpt.undefinedV) ∧
      (s.activatedBy.erase activateName ≠ ∅ →
        ApplicationContext.deactivate s activateName =
          { s with activatedBy := s.activatedBy.erase activateName }) := by
  intro s activateName
  by_cases hempty : s.activatedBy.erase activateName = ∅
  · have hcard : (s.activatedBy.erase activateName).card = 0 :=
      Finset.card_eq_zero.mpr hempty
    refine ⟨?_, fun _ => ?_, fun hne => absurd hempty hne⟩
    · simp [ApplicationContext.deactivate, ApplicationContext.removeFromActivatedBy,
        ApplicationContext.clear, hcard]
    · simp [ApplicationContext.deactivate, ApplicationContext.removeFromActivatedBy,
        ApplicationContext.clear, hcard]
  · have hcard : (s.activatedBy.erase activateName).card ≠ 0 :=
      fun hc => hempty (Finset.card_eq_zero.mp hc)
    refine ⟨?_, fun he => absurd he hempty, fun _ => ?_⟩
    · simp [ApplicationContext.deactivate, ApplicationContext.removeFromActivatedBy,
        hcard]
    · simp [ApplicationContext.deactivate, ApplicationContext.removeFromActivatedBy,
        hcard]

/-- C2 witness: with `activatedBy = {"a", "b"}`, deactivating `"a"` only
shrinks `activatedBy`; deactivating the final activator of a store whose
`activatedBy = {"a"}` clears the context fields. -/
theorem ApplicationContext.deactivate_spec_witness :
    (({ ApplicationContext.initialState with
          activatedBy := {"a", "b"} } :
        ApplicationContext.ApplicationContextStore).activatedBy.erase "a" ≠ ∅ ∧
      ApplicationContext.deactivate
          { ApplicationContext.initialState with activatedBy := {"a", "b"} } "a" =
        { ApplicationContext.initialState with
            activatedBy := ({"a", "b"} : Finset String).erase "a" }) ∧
    (({ ApplicationContext.initialState with
          activatedBy := {"a"} } :
        ApplicationContext.ApplicationContextStore).activatedBy.erase "a" = ∅ ∧
      (ApplicationContext.deactivate
          { ApplicationContext.initialState with activatedBy := {"a"} } "a").applicationId
        = none) := by
  have hne : (({"a", "b"} : Finset String).erase "a") ≠ ∅ := by decide
  have he : (({"a"} : Finset String).erase "a") = ∅ := by decide
  exact ⟨⟨hne, (ApplicationContext.deactivate_spec _ "a").2.2 hne⟩,
    ⟨he, ((ApplicationContext.deactivate_spec _ "a").2.1 he).1⟩⟩

/-- C9: the applicationContext `clear` mutation leaves `currentEditSession`,
`editMode` and `activatedBy` at their prior values while resetting
`applicationId`, `applicationName`, `systemsList`, `currentSystem`,
`openChangeSetsList`, `currentChangeSet` and `statusBarCtx`; hence after the
last deactivation a previously set `currentEditSession` and an enabled
`editMode` survive in the store. -/
theorem ApplicationContext.clear_keeps_session_fields :
    ∀ s : ApplicationContext.ApplicationContextStore,
      (ApplicationContext.clear s).currentEditSession = s.currentEditSession ∧
      (ApplicationContext.clear s).editMode = s.editMode ∧
      (ApplicationContext.clear s).activatedBy = s.activatedBy ∧
      (ApplicationContext.clear s).applicationId = none ∧
      (ApplicationContext.clear s).applicationName = none ∧
      (ApplicationContext.clear s).systemsList = [] ∧
      (ApplicationContext.clear s).currentSystem = none ∧
      (ApplicationContext.clear s).openChangeSetsList = [] ∧
      (ApplicationContext.clear s).currentChangeSet = none ∧
      (ApplicationContext.clear s).statusBarCtx = SiModel.JsOpt.undefinedV ∧
      (∀ activateName, s.activatedBy.erase activateName = ∅ →
        (ApplicationContext.deactivate s activateName).currentEditSession =
            s.currentEditSession ∧
          (ApplicationContext.deactivate s activateName).editMode = s.editMode) := by
  intro s
  refine ⟨rfl, rfl, rfl, rfl, rfl, rfl, rfl, rfl, rfl, rfl, ?_⟩
  intro activateName hempty
  have hcard : (s.activatedBy.erase activateName).card = 0 :=
    Finset.card_eq_zero.mpr hempty
  constructor <;>
    simp [ApplicationContext.deactivate, ApplicationContext.removeFromActivatedBy,
      ApplicationContext.clear, hcard]

/-- C9 witness: a store with an edit session and edit mode on, deactivated by
its last activator, keeps both. -/
theorem ApplicationContext.clear_keeps_session_fields_witness :
    (({ ApplicationContext.initialState with activatedBy := {"a"} } :
        ApplicationContext.ApplicationContextStore).activatedBy.erase "a" = ∅) ∧
    (ApplicationContext.deactivate
        { ApplicationContext.initialState with
            activatedBy := {"a"}
            currentEditSession := some { id := "es1", name := "sess" }
            editMode := true } "a").currentEditSession =
      some { id := "es1", name := "sess" } ∧
    (ApplicationContext.deactivate
        { ApplicationContext.initialState with
            activatedBy := {"a"}
            currentEditSession := some { id := "es1", name := "sess" }
            editMode := true } "a").editMode = true := by
  have he : (({"a"} : Finset String).erase "a") = ∅ := by decide
  have h := (ApplicationContext.clear_keeps_session_fields
    { ApplicationContext.initialState with
        activatedBy := {"a"}
        currentEditSession := some { id := "es1", name := "sess" }
        editMode := true }).2.2.2.2.2.2.2.2.2.2 "a" he
  exact ⟨he, h.1, h.2⟩

/-- C3: `getIconByName` resolves the part of the name before the first `--`:
the `SPINNABLE_ICONS` entry when that base is a spinnable key, otherwise the
`ICONS` entry when it is a regular key, otherwise the `ICONS` entry its alias
maps to, and when the base matches none of these it falls back to the
`help-circle` icon; it always returns an icon. -/
theorem IconRegistry.getIconByName_spec : ∀ name : String,
    (∀ i, IconRegistry.lookupIcon IconRegistry.SPINNABLE_ICONS
        (IconRegistry.nameWithoutModifiers name) = some i →
      IconRegistry.getIconByName name = some i) ∧
    (IconRegistry.lookupIcon IconRegistry.SPINNABLE_ICONS
        (IconRegistry.nameWithoutModifiers name) = none →
      ∀ i, IconRegistry.lookupIcon IconRegistry.ICONS
          (IconRegistry.nameWithoutModifiers name) = some i →
        IconRegistry.getIconByName name = some i) ∧
    (IconRegistry.lookupIcon IconRegistry.SPINNABLE_ICONS
        (IconRegistry.nameWithoutModifiers name) = none →
      IconRegistry.lookupIcon IconRegistry.ICONS
        (IconRegistry.nameWithoutModifiers name) = none →
      ∀ a i, IconRegistry.lookupIcon IconRegistry.ICON_NAME_ALIASES
          (IconRegistry.nameWithoutModifiers name) = some a →
        IconRegistry.lookupIcon IconRegistry.ICONS a = some i →
        IconRegistry.getIconByName name = some i) ∧
    (IconRegistry.lookupIcon IconRegistry.SPINNABLE_ICONS
        (IconRegistry.nameWithoutModifiers name) = none →
      IconRegistry.lookupIcon IconRegistry.ICONS
        (IconRegistry.nameWithoutModifiers name) = none →
      (IconRegistry.lookupIcon IconRegistry.ICON_NAME_ALIASES
          (IconRegistry.nameWithoutModifiers name)).bind
        (IconRegistry.lookupIcon IconRegistry.ICONS) = none →
      IconRegistry.getIconByName name = some "QuestionMarkCircle") ∧
    (IconRegistry.getIconByName name).isSome = true := by
  intro name
  have hfb : IconRegistry.lookupIcon IconRegistry.ICONS "help-circle" =
      some "QuestionMarkCircle" := by decide
  refine ⟨?_, ?_, ?_, ?_, ?_⟩
  · intro i hi
    simp [IconRegistry.getIconByName, hi]
  · intro hs i hi
    simp [IconRegistry.getIconByName, hs, hi]
  · intro hs hr a i ha hi
    simp [IconRegistry.getIconByName, hs, hr, ha, hi]
  · intro hs hr hal
    simp [IconRegistry.getIconByName, hs, hr, hal, hfb]
  · cases hs : IconRegistry.lookupIcon IconRegistry.SPINNABLE_ICONS
      (IconRegistry.nameWithoutModifiers name) with
    | some i => simp [IconRegistry.getIconByName, hs]
    | none =>
      cases hr : IconRegistry.lookupIcon IconRegistry.ICONS
          (IconRegistry.nameWithoutModifiers name) with
      | some i => simp [IconRegistry.getIconByName, hs, hr]
      | none =>
        cases hal : (IconRegistry.lookupIcon IconRegistry.ICON_NAME_ALIASES
            (IconRegistry.nameWithoutModifiers name)).bind
            (IconRegistry.lookupIcon IconRegistry.ICONS) with
        | some i => simp [IconRegistry.getIconByName, hs, hr, hal]
        | none => simp [IconRegistry.getIconByName, hs, hr, hal, hfb]

/-- C3 witness: a spinnable name with a modifier, a regular key, and an
unknown name falling back to help-circle. -/
theorem IconRegistry.getIconByName_spec_witness :
    IconRegistry.getIconByName "arrow--down" = some "Arrow" ∧
    IconRegistry.getIconByName "check-circle" = some "CheckCircle" ∧
    IconRegistry.getIconByName "no-such-icon" = some "QuestionMarkCircle" :=
  ⟨(IconRegistry.getIconByName_spec "arrow--down").1 "Arrow" (by decide),
    (IconRegistry.getIconByName_spec "check-circle").2.1 (by decide)
      "CheckCircle" (by decide),
    (IconRegistry.getIconByName_spec "no-such-icon").2.2.2.1 (by decide)
      (by decide) (by decide)⟩

/-- C4: when the editor store has no change set, `editSessionCreate` throws
`"cannot start an edit session without a change set!"` and the store is left
unchanged; when a change set is selected, `EditSession.create` is called with
`changeSet.id` (an edit session is only created inside the currently selected
change set). -/
theorem Editor.editSessionCreate_spec :
    ∀ (workspace : Editor.Workspace) (organization : Editor.Organization)
      (user : Editor.User) (nowIso : String)
      (create : String → Editor.ICreateEditSessionRequestArgs → SiModel.EditSession)
      (s : Editor.EditorStore),
      (s.changeSet = none →
        Editor.runEditorAction s
            (Editor.editSessionCreate workspace organization user nowIso create) =
          (s, Except.error "cannot start an edit session without a change set!")) ∧
      (∀ cs, s.changeSet = some cs →
        ∃ args,
          Editor.editSessionCreate workspace organization user nowIso create s =
            Except.ok
              (Editor.editSessionMut s (some (create cs.id args)), (cs.id, args))) := by
  intro workspace organization user nowIso create s
  constructor
  · intro h
    simp [Editor.runEditorAction, Editor.editSessionCreate, h]
  · intro cs h
    refine ⟨?_, ?_⟩
    · exact ⟨user.name ++ " " ++ nowIso, workspace.id, organization.id⟩
    · simp [Editor.editSessionCreate, h]

/-- C4 witness: on the initial store (no change set) the action errors and the
store is unchanged; with a selected change set `cs1`, `create` is called with
`"cs1"`. -/
theorem Editor.editSessionCreate_spec_witness :
    (Editor.runEditorAction Editor.initialState
        (Editor.editSessionCreate { id := "w1" } { id := "o1" } { name := "al" }
          "2021-01-01T00:00:00.000Z" (fun _ args => { id := "es1", name := args.name })) =
      (Editor.initialState,
        Except.error "cannot start an edit session without a change set!")) ∧
    (∃ args, Editor.editSessionCreate { id := "w1" } { id := "o1" } { name := "al" }
        "2021-01-01T00:00:00.000Z" (fun csId _ => { id := csId, name := "n" })
        { Editor.initialState with
            changeSet := some { id := "cs1", name := "c", status := .Open } } =
      Except.ok
        (Editor.editSessionMut
          { Editor.initialState with
              changeSet := some { id := "cs1", name := "c", status := .Open } }
          (some { id := "cs1", name := "n" }), ("cs1", args))) :=
  ⟨(Editor.editSessionCreate_spec { id := "w1" } { id := "o1" } { name := "al" }
      "2021-01-01T00:00:00.000Z" _ Editor.initialState).1 rfl,
    (Editor.editSessionCreate_spec { id := "w1" } { id := "o1" } { name := "al" }
      "2021-01-01T00:00:00.000Z" _ _).2 { id := "cs1", name := "c", status := .Open } rfl⟩

/-- C6: a server-pushed node is ignored unless an application is selected and
the node is a successor of the node of the application: in the ignored cases
`fromNode` leaves the entire editor state (in particular `nodes`, `node` and
`resources`) unchanged. -/
theorem Editor.fromNode_frame :
    ∀ (successors : List Editor.Node)
      (getResource : String → String → Editor.Resource)
      (payload : Editor.Node) (s : Editor.EditorStore),
      (s.application = none ∨ ∀ n ∈ successors, n.id ≠ payload.id) →
        Editor.fromNode successors getResource payload s = s := by
  intro successors getResource payload s h
  rcases h with h | h
  · simp [Editor.fromNode, h]
  · cases happ : s.application with
    | none => simp [Editor.fromNode, happ]
    | some app =>
      have hfind : successors.find? (fun n => n.id = payload.id) = none := by
        rw [List.find?_eq_none]
        intro n hn
        simpa using h n hn
      simp [Editor.fromNode, happ, hfind]

/-- C6 witness: a pushed node whose id is not among the successors leaves a
store with a selected application unchanged. -/
theorem Editor.fromNode_frame_witness :
    Editor.fromNode [{ id := "n2", objectType := "service" }]
        (fun nodeId systemId => { id := "r1", nodeId := nodeId, systemId := systemId })
        { id := "n9", objectType := "service" }
        { Editor.initialState with
            application := some { id := "a1", nodeId := "n0" } } =
      { Editor.initialState with
          application := some { id := "a1", nodeId := "n0" } } :=
  Editor.fromNode_frame _ _ _ _ (Or.inr (by decide))

theorem uniqByAux_nil_cons {α β : Type} [DecidableEq β] (key : α → β) (x : α)
    (l : List α) : uniqByAux key [] (x :: l) = x :: uniqByAux key [key x] l := by
  simp [uniqByAux]

/-- C5: `fromChangeSet` on an `Open` payload adds it to `changeSetsOpen` keyed
by id — the payload is present, any entry with its id is the payload itself,
its id occurs exactly once, and nothing is dispatched; on any other status it
removes every entry with every entry carrying the payload id, keeps every other entry, and
dispatches `setChangeSet` with id `undefined` exactly when the payload is the
currently selected change set. -/
theorem Editor.fromChangeSet_spec :
    ∀ (payload : SiModel.ChangeSet) (s : Editor.EditorStore),
      (payload.status = SiModel.ChangeSetStatus.Open →
        payload ∈ (Editor.fromChangeSet payload s).1.changeSetsOpen ∧
        (∀ c ∈ (Editor.fromChangeSet payload s).1.changeSetsOpen,
          c.id = payload.id → c = payload) ∧
        ((Editor.fromChangeSet payload s).1.changeSetsOpen.countP
          (fun c => c.id == payload.id)) = 1 ∧
        (Editor.fromChangeSet payload s).2 = []) ∧
      (payload.status ≠ SiModel.ChangeSetStatus.Open →
        (∀ c ∈ (Editor.fromChangeSet payload s).1.changeSetsOpen,
          c.id ≠ payload.id) ∧
        (∀ c ∈ s.changeSetsOpen, c.id ≠ payload.id →
          c ∈ (Editor.fromChangeSet payload s).1.changeSetsOpen) ∧
        (s.changeSet.map (fun c => c.id) = some payload.id →
          (Editor.fromChangeSet payload s).2 =
            [Editor.EditorDispatchCall.setChangeSetCall none]) ∧
        (s.changeSet.map (fun c => c.id) ≠ some payload.id →
          (Editor.fromChangeSet payload s).2 = [])) := by
  intro payload s
  constructor
  · intro hopen
    have hres : Editor.fromChangeSet payload s =
        (Editor.changeSetsOpenAdd s payload, []) := by
      simp [Editor.fromChangeSet, hopen]
    rw [hres]
    have hlist : (Editor.changeSetsOpenAdd s payload).changeSetsOpen =
        payload :: uniqByAux (fun c => c.id) [payload.id] s.changeSetsOpen := by
      simp [Editor.changeSetsOpenAdd, unionByKey, uniqByAux_nil_cons]
    rw [hlist]
    refine ⟨List.mem_cons_self _ _, ?_, ?_, rfl⟩
    · intro c hc hid
      rcases List.mem_cons.mp hc with h | h
      · exact h
      · have := key_notMem_seen_of_mem_uniqByAux (fun c => c.id) _ _ c h
        simp at this
        exact absurd hid this
    · rw [List.countP_cons]
      have hzero : (uniqByAux (fun c => c.id) [payload.id] s.changeSetsOpen).countP
          (fun c => c.id == payload.id) = 0 := by
        rw [List.countP_eq_zero]
        intro c hc
        have := key_notMem_seen_of_mem_uniqByAux (fun c => c.id) _ _ c hc
        simp at this
        simp [this]
      simp [hzero]
  · intro hclosed
    have hres : Editor.fromChangeSet payload s =
        (Editor.changeSetsOpenRemove s payload,
          if s.changeSet.map (fun c => c.id) = some payload.id then
            [Editor.EditorDispatchCall.setChangeSetCall none]
          else []) := by
      simp [Editor.fromChangeSet, hclosed]
    rw [hres]
    refine ⟨?_, ?_, ?_, ?_⟩
    · intro c hc
      have := List.mem_filter.mp hc
      simpa using this.2
    · intro c hc hid
      exact List.mem_filter.mpr ⟨hc, by simpa using hid⟩
    · intro hcur
      simp [hcur]
    · intro hcur
      simp [hcur]

/-- C5 witness: an Open payload replaces the stale entry with its id; a Closed
payload for the currently selected change set removes it and dispatches
`setChangeSet` with id `undefined`. -/
theorem Editor.fromChangeSet_spec_witness :
    (({ id := "cs1", name := "new", status := .Open } : SiModel.ChangeSet) ∈
        (Editor.fromChangeSet { id := "cs1", name := "new", status := .Open }
          { Editor.initialState with
              changeSetsOpen :=
                [{ id := "cs1", name := "old", status := .Open }] }).1.changeSetsOpen) ∧
    (∀ c ∈ (Editor.fromChangeSet { id := "cs1", name := "gone", status := .Closed }
        { Editor.initialState with
            changeSet := some { id := "cs1", name := "old", status := .Open }
            changeSetsOpen :=
              [{ id := "cs1", name := "old", status := .Open }] }).1.changeSetsOpen,
      c.id ≠ "cs1") ∧
    (Editor.fromChangeSet { id := "cs1", name := "gone", status := .Closed }
        { Editor.initialState with
            changeSet := some { id := "cs1", name := "old", status := .Open }
            changeSetsOpen :=
              [{ id := "cs1", name := "old", status := .Open }] }).2 =
      [Editor.EditorDispatchCall.setChangeSetCall none] := by
  refine ⟨?_, ?_, ?_⟩
  · exact ((Editor.fromChangeSet_spec { id := "cs1", name := "new", status := .Open }
      _).1 rfl).1
  · exact ((Editor.fromChangeSet_spec { id := "cs1", name := "gone", status := .Closed }
      _).2 (by decide)).1
  · exact ((Editor.fromChangeSet_spec { id := "cs1", name := "gone", status := .Closed }
      _).2 (by decide)).2.2.1 rfl

theorem Editor.eventBarInvariant_newEventBar (e : Editor.Event)
    (logs : List Editor.EventLog) (bar : List Editor.EventBarItem) :
    Editor.eventBarInvariant (Editor.newEventBar e logs bar) := by
  unfold Editor.newEventBar Editor.eventBarInvariant
  refine ⟨List.length_take_le _ _, ?_, ?_⟩
  · have hp : List.Pairwise (fun a b : Editor.EventBarItem => a.id ≠ b.id)
        (unionByKey (fun i => i.id) [Editor.mkEventBarItem e logs] bar) :=
      pairwise_uniqByAux _ _ _
    have hps : List.Pairwise (fun a b : Editor.EventBarItem => a.id ≠ b.id)
        (List.insertionSort Editor.eventBarDescOrder
          (unionByKey (fun i => i.id) [Editor.mkEventBarItem e logs] bar)) :=
      ((List.perm_insertionSort Editor.eventBarDescOrder _).pairwise_iff
        (fun h => h.symm)).mpr hp
    exact hps.sublist (List.take_sublist _ _)
  · have hs : List.Sorted Editor.eventBarDescOrder
        (List.insertionSort Editor.eventBarDescOrder
          (unionByKey (fun i => i.id) [Editor.mkEventBarItem e logs] bar)) :=
      List.sorted_insertionSort _ _
    exact List.Pairwise.sublist (List.take_sublist _ _) hs

theorem Editor.newEventBar_id_unique (e : Editor.Event)
    (logs : List Editor.EventLog) (bar : List Editor.EventBarItem) :
    ∀ x ∈ Editor.newEventBar e logs bar, x.id = e.id →
      x = Editor.mkEventBarItem e logs := by
  intro x hx hid
  have hs : x ∈ List.insertionSort Editor.eventBarDescOrder
      (unionByKey (fun i => i.id) [Editor.mkEventBarItem e logs] bar) :=
    List.take_subset _ _ hx
  have hu : x = Editor.mkEventBarItem e logs ∨
      x ∈ uniqByAux (fun i : Editor.EventBarItem => i.id)
        [(Editor.mkEventBarItem e logs).id] bar := by
    simpa using hs
  rcases hu with h | h
  · exact h
  · have := key_notMem_seen_of_mem_uniqByAux (fun i : Editor.EventBarItem => i.id)
      _ _ x h
    simp [Editor.mkEventBarItem] at this
    exact absurd hid this

theorem Editor.mkEventBarItem_mem_newEventBar (e : Editor.Event)
    (logs : List Editor.EventLog) (bar : List Editor.EventBarItem)
    (hInv : Editor.eventBarInvariant bar) (hid : ∃ y ∈ bar, y.id = e.id) :
    Editor.mkEventBarItem e logs ∈ Editor.newEventBar e logs bar := by
  have hcons : unionByKey (fun i : Editor.EventBarItem => i.id)
      [Editor.mkEventBarItem e logs] bar =
      Editor.mkEventBarItem e logs ::
        uniqByAux (fun i => i.id) [(Editor.mkEventBarItem e logs).id] bar := by
    unfold unionByKey
    exact uniqByAux_nil_cons _ _ _
  have hlt : (uniqByAux (fun i : Editor.EventBarItem => i.id)
      [(Editor.mkEventBarItem e logs).id] bar).length < bar.length := by
    rcases hid with ⟨y, hy, hyid⟩
    exact length_uniqByAux_lt _ _ _ ⟨y, hy, by simp [Editor.mkEventBarItem, hyid]⟩
  have hulen : (unionByKey (fun i : Editor.EventBarItem => i.id)
      [Editor.mkEventBarItem e logs] bar).length ≤ 60 := by
    rw [hcons]
    have : (uniqByAux (fun i : Editor.EventBarItem => i.id)
        [(Editor.mkEventBarItem e logs).id] bar).length + 1 ≤ bar.length :=
      Nat.succ_le_of_lt hlt
    calc (Editor.mkEventBarItem e logs ::
          uniqByAux (fun i => i.id) [(Editor.mkEventBarItem e logs).id] bar).length
        = (uniqByAux (fun i : Editor.EventBarItem => i.id)
            [(Editor.mkEventBarItem e logs).id] bar).length + 1 := by simp
      _ ≤ bar.length := this
      _ ≤ 60 := hInv.1
  have htake : Editor.newEventBar e logs bar =
      List.insertionSort Editor.eventBarDescOrder
        (unionByKey (fun i => i.id) [Editor.mkEventBarItem e logs] bar) := by
    unfold Editor.newEventBar
    exact List.take_of_length_le (by rw [List.length_insertionSort]; exact hulen)
  rw [htake]
  simp only [List.mem_insertionSort]
  rw [hcons]
  exact List.mem_cons_self _ _

theorem Editor.eventBarInvariant_foldl
    (pushes : List (Editor.Event × List Editor.EventLog)) :
    ∀ bar, Editor.eventBarInvariant bar →
      Editor.eventBarInvariant
        (pushes.foldl (fun b p => Editor.newEventBar p.1 p.2 b) bar) := by
  induction pushes with
  | nil => intro bar h; exact h
  | cons p ps ih =>
    intro bar _
    exact ih _ (Editor.eventBarInvariant_newEventBar p.1 p.2 bar)

/-- C8: after every `updateEventBar` mutation the event bar holds at most 60
items, has at most one item per event id (a pushed event whose id is already
present replaces the old item), and is sorted by `event.startUnixTimestamp`
descending; the invariant is preserved by every sequence of `updateEventBar`
applications starting from the empty event bar. -/
theorem Editor.updateEventBar_spec :
    ∀ (e : Editor.Event) (logs : List Editor.EventLog) (s : Editor.EditorStore),
      Editor.eventBarInvariant (Editor.updateEventBar s e logs).eventBar ∧
      (∀ x ∈ (Editor.updateEventBar s e logs).eventBar, x.id = e.id →
        x = Editor.mkEventBarItem e logs) ∧
      (Editor.eventBarInvariant s.eventBar → (∃ y ∈ s.eventBar, y.id = e.id) →
        Editor.mkEventBarItem e logs ∈ (Editor.updateEventBar s e logs).eventBar) ∧
      (∀ pushes : List (Editor.Event × List Editor.EventLog),
        Editor.eventBarInvariant
          (pushes.foldl (fun bar p => Editor.newEventBar p.1 p.2 bar) [])) := by
  intro e logs s
  refine ⟨Editor.eventBarInvariant_newEventBar e logs s.eventBar,
    Editor.newEventBar_id_unique e logs s.eventBar,
    Editor.mkEventBarItem_mem_newEventBar e logs s.eventBar,
    fun pushes => Editor.eventBarInvariant_foldl pushes []
      ⟨by norm_num, List.Pairwise.nil, List.sorted_nil⟩⟩

/-- C8 witness: pushing an event whose id is already in a one-item bar
replaces the stale item. -/
theorem Editor.updateEventBar_spec_witness :
    Editor.eventBarInvariant
      [Editor.mkEventBarItem { id := "e1", startUnixTimestamp := 3 } []] ∧
    Editor.mkEventBarItem { id := "e1", startUnixTimestamp := 5 } [] ∈
      (Editor.updateEventBar
        { Editor.initialState with
            eventBar :=
              [Editor.mkEventBarItem { id := "e1", startUnixTimestamp := 3 } []] }
        { id := "e1", startUnixTimestamp := 5 } []).eventBar := by
  have hInv : Editor.eventBarInvariant
      [Editor.mkEventBarItem { id := "e1", startUnixTimestamp := 3 } []] :=
    ⟨by norm_num, by simp, by simp⟩
  refine ⟨hInv, ?_⟩
  exact (Editor.updateEventBar_spec { id := "e1", startUnixTimestamp := 5 } []
    { Editor.initialState with
        eventBar :=
          [Editor.mkEventBarItem { id := "e1", startUnixTimestamp := 3 } []] }).2.2.1
    hInv ⟨Editor.mkEventBarItem { id := "e1", startUnixTimestamp := 3 } [],
      List.mem_singleton_self _, rfl⟩
